import Mathlib

/-!
Verification of the prompt-responding process supervisor in
`scripts/claude-auto.py` (class `ClaudeAutoWrapper`).

The embedding models:
* the regular-expression fragment the program's pattern table exercises
  (literal characters, backslash-escaped punctuation, `.`, `.*`), with
  `re.IGNORECASE` case folding and `re.search` scan-from-every-position
  semantics; `.` does not match a newline, as in Python without `DOTALL`.
  A pattern outside this fragment fails to parse (`none`), modelling the
  fact that an arbitrary operator-supplied string may be rejected by the
  regex engine.
* `find_response` (first matching pattern wins, default response `"yes"`);
  its result is `Option String`, where `none` models the `re.error`
  exception escaping the call, which the Python source never catches
  inside `find_response` itself.
* `load_docker_patterns` over an abstract state of the two well-known
  settings paths.
* the supervisor loop of `run_claude`: per drained line the buffer is
  extended, the selector is run on the accumulated buffer, and a response
  is injected when the debounce interval has elapsed (timestamps are
  rationals; both `time.time()` reads around one injection are modelled
  as the single instant at which the line is processed).
-/

/-- `RESPONSE_DEBOUNCE_TIME = 0.1` from the source, as a rational. -/
def RESPONSE_DEBOUNCE_TIME : ℚ := 1 / 10

/-- `POLL_INTERVAL = 0.01` from the source. -/
def POLL_INTERVAL : ℚ := 1 / 100

/-- `THREAD_JOIN_TIMEOUT = 1.0` from the source. -/
def THREAD_JOIN_TIMEOUT : ℚ := 1

/-- A token of the compiled regex fragment: a literal character, `.`
(any character but newline), or `.*` (any run of non-newline characters). -/
inductive RTok where
  | lit (c : Char)
  | dot
  | dotStar
deriving DecidableEq, Repr

/-- Characters that are regex metacharacters in Python when unescaped and
are outside the modelled fragment (`.` and `\` are handled separately). -/
def regexMeta : List Char :=
  ['^', '$', '|', '?', '*', '+', '(', ')', '[', ']', '\x7b', '\x7d']

/-- Compile a pattern string into tokens.  Escaped non-alphanumeric
characters become literals (as in Python); an escaped alphanumeric is a
character class, outside the fragment; an unescaped metacharacter other
than `.`/`.*` is outside the fragment.  `none` models a pattern the
embedding does not interpret (in Python such strings either carry class
or group semantics, or raise `re.error`). -/
def parseRegex : List Char → Option (List RTok)
  | [] => some []
  | '\\' :: rest =>
    match rest with
    | [] => none
    | c :: rest' =>
      if c.isAlphanum then none
      else (parseRegex rest').map (fun ts => RTok.lit c :: ts)
  | '.' :: '*' :: rest => (parseRegex rest).map (fun ts => RTok.dotStar :: ts)
  | '.' :: rest => (parseRegex rest).map (fun ts => RTok.dot :: ts)
  | c :: rest =>
    if c ∈ regexMeta then none
    else (parseRegex rest).map (fun ts => RTok.lit c :: ts)

/-- Fuel-indexed matcher: does the token list match a prefix of the text?
Case folding is `Char.toLower` on both sides (`re.IGNORECASE`); `.` and
`.*` refuse `'\n'` (Python default, no `DOTALL`). -/
def rmatchF : Nat → List RTok → List Char → Bool
  | 0, _, _ => false
  | _ + 1, [], _ => true
  | _ + 1, RTok.lit _ :: _, [] => false
  | n + 1, RTok.lit c :: ts, x :: xs => (c.toLower == x.toLower) && rmatchF n ts xs
  | _ + 1, RTok.dot :: _, [] => false
  | n + 1, RTok.dot :: ts, x :: xs => (x != '\n') && rmatchF n ts xs
  | n + 1, RTok.dotStar :: ts, [] => rmatchF n ts []
  | n + 1, RTok.dotStar :: ts, x :: xs =>
    rmatchF n ts (x :: xs) || ((x != '\n') && rmatchF n (RTok.dotStar :: ts) xs)

/-- Match at the start of the text, with enough fuel. -/
def rmatch (ts : List RTok) (xs : List Char) : Bool :=
  rmatchF (ts.length + xs.length + 1) ts xs

/-- `re.search` semantics: try to match at every start position. -/
def rsearch (ts : List RTok) : List Char → Bool
  | [] => rmatch ts []
  | x :: xs => rmatch ts (x :: xs) || rsearch ts xs

/-- `re.search(pattern, text, re.IGNORECASE) is not None`, or `none` when
the pattern is outside the modelled fragment. -/
def regexSearch (pat text : String) : Option Bool :=
  (parseRegex pat.data).map (fun ts => rsearch ts text.data)

/-- The hard-coded pattern list of `ClaudeAutoWrapper.response_patterns`
(source lines 31–74), before `self.docker_patterns` is appended. -/
def builtin_response_patterns : List (String × String) := [
  ("Do you want to proceed\\?", "yes"),
  ("Do you want to make this edit", "yes"),
  ("Save file to continue", "\n"),
  ("Opened changes in Cursor", "\n"),
  ("Bash command.*Do you want to proceed", "yes"),
  ("Are you sure", "yes"),
  ("Continue\\?", "yes"),
  ("Confirm", "yes"),
  ("Overwrite", "yes"),
  ("\\(Y/n\\)", "Y"),
  ("\\(y/N\\)", "y"),
  ("yes/no", "yes"),
  ("Press.*to continue", "\n"),
  ("Enter to continue", "\n"),
  ("Would you like to", "yes"),
  ("Create.*\\?", "yes"),
  ("Install.*\\?", "yes"),
  ("Execute.*\\?", "yes"),
  ("Run.*\\?", "yes"),
  ("Apply.*\\?", "yes"),
  ("Update.*\\?", "yes"),
  ("Delete.*\\?", "yes"),
  ("Remove.*\\?", "yes"),
  ("docker-compose up.*Do you want to proceed", "yes"),
  ("Start Docker containers.*Do you want to proceed", "yes"),
  ("Starting Docker containers", "yes"),
  ("Building Docker image", "yes"),
  ("Pulling Docker image", "yes"),
  ("Creating Docker network", "yes"),
  ("Creating Docker volume", "yes"),
  ("Starting container", "yes"),
  ("Stopping container", "yes"),
  ("curl.*api/v1/workflows.*Do you want to proceed", "yes"),
  ("Import.*workflow.*Do you want to proceed", "yes"),
  ("n8n.*workflow.*operation", "yes"),
  ("Create n8n workflow", "yes"),
  ("Update n8n workflow", "yes"),
  ("Delete n8n workflow", "yes"),
  ("Activate n8n workflow", "yes"),
  ("Deactivate n8n workflow", "yes")
]

/-- `self.response_patterns = [ ... ] + self.docker_patterns`
(source line 74): the table handed to the selector, as a function of the
entries loaded from settings. -/
def response_patterns (docker_patterns : List (String × String)) :
    List (String × String) :=
  builtin_response_patterns ++ docker_patterns

/-- `ClaudeAutoWrapper.find_response` (source lines 133–138): first
pattern whose regex search succeeds wins, otherwise the default `"yes"`.
`none` models a `re.error` raised by a pattern reached before any match. -/
def find_response (pats : List (String × String)) (text : String) :
    Option String :=
  match pats with
  | [] => some "yes"
  | (p, r) :: rest =>
    match regexSearch p text with
    | none => none
    | some true => some r
    | some false => find_response rest text

/-! ### Settings loader (`load_docker_patterns`, source lines 76–110) -/

/-- The decoded shape of a settings document, with `Option` marking keys
that may be absent; `.get(key, default)` defaulting is applied at use
sites, as in the source. -/
structure Settings where
  docker_enabled : Option Bool
  docker_patterns : Option (List String)
  n8n_auto_approve : Option Bool
deriving DecidableEq, Repr

/-- The five n8n patterns appended when `n8n.auto_approve` is set
(source lines 98–104). -/
def n8n_auto_approve_patterns : List (String × String) := [
  ("n8n.*workflow", "yes"),
  ("api/v1/workflows", "yes"),
  ("workflow.*import", "yes"),
  ("workflow.*create", "yes"),
  ("workflow.*update", "yes")
]

/-- The entries built from one successfully parsed settings document
(source lines 89–104): the docker block's patterns each paired with
`"yes"` when `automation.docker.enabled`, then the fixed n8n block when
`n8n.auto_approve`; missing keys default to disabled/empty via `getD`. -/
def patternsOfSettings (s : Settings) : List (String × String) :=
  (if s.docker_enabled.getD false then
    (s.docker_patterns.getD []).map (fun p => (p, "yes"))
  else [])
  ++ (if s.n8n_auto_approve.getD false then n8n_auto_approve_patterns else [])

/-- The state of one well-known settings path: the file may be absent
(`os.path.exists` false), unreadable (`open` raises), malformed
(`json.load` raises), or a parsed document. -/
inductive FileState where
  | absent
  | unreadable
  | malformed
  | ok (s : Settings)
deriving DecidableEq, Repr

/-- One iteration of the loader's path loop: `some` when the `try` body
reaches its `return patterns` (file exists and parses), `none` when the
loop falls through to the next path (file absent) or the `except` clause
swallows a raised error (unreadable/malformed). -/
def tryLoadPath : FileState → Option (List (String × String))
  | FileState.absent => none
  | FileState.unreadable => none
  | FileState.malformed => none
  | FileState.ok s => some (patternsOfSettings s)

/-- `ClaudeAutoWrapper.load_docker_patterns` (source lines 76–110) over
the states of the two well-known paths, first found wins, `[]` when both
fall through.  Total: every error is swallowed inside the loop. -/
def load_docker_patterns (fs1 fs2 : FileState) : List (String × String) :=
  match tryLoadPath fs1 with
  | some p => p
  | none =>
    match tryLoadPath fs2 with
    | some p => p
    | none => []

/-! ### Supervisor loop (`run_claude`, source lines 140–218) -/

/-- The state the loop threads through poll ticks: the accumulated
output buffer, `last_response_time`, and the injections written so far
(instant and response, in order; the source writes `response + "\n"`
and flushes). -/
structure LoopState where
  buffer : String
  lastResponseTime : ℚ
  sent : List (ℚ × String)
deriving DecidableEq, Repr

/-- `buffer = ""`, `last_response_time = 0` (source lines 185–186). -/
def initState : LoopState :=
  { buffer := "", lastResponseTime := 0, sent := [] }

/-- Processing one line taken from the queue at instant `t`
(source lines 193–203): append it to the buffer, run the selector on the
accumulated buffer, and if the response is truthy and more than the
debounce interval elapsed since the last response, inject it, reset the
timer and clear the buffer.  The `none` (raised `re.error`) case leaves
the state with the extended buffer, the mutation already performed. -/
def stepLine (pats : List (String × String)) (st : LoopState)
    (line : String) (t : ℚ) : LoopState :=
  match find_response pats (st.buffer ++ line) with
  | none => { st with buffer := st.buffer ++ line }
  | some r =>
    if r ≠ "" ∧ t - st.lastResponseTime > RESPONSE_DEBOUNCE_TIME then
      { buffer := "", lastResponseTime := t, sent := st.sent ++ [(t, r)] }
    else
      { st with buffer := st.buffer ++ line }

/-- One poll tick's drain loop (source lines 192–203): take queued lines
one at a time, each tagged with the instant it is processed; on a raised
`re.error` the surrounding bare `except` aborts the drain, so the
remaining lines stay queued (returned as leftover). -/
def processTick (pats : List (String × String)) :
    LoopState → List (String × ℚ) → LoopState × List (String × ℚ)
  | st, [] => (st, [])
  | st, (l, t) :: rest =>
    if (find_response pats (st.buffer ++ l)).isNone then
      ({ st with buffer := st.buffer ++ l }, rest)
    else
      processTick pats (stepLine pats st l t) rest

/-- A whole session's line processing as one fold (ticks flattened; each
element is a line with the instant the loop processes it). -/
def runLines (pats : List (String × String)) (st : LoopState)
    (trace : List (String × ℚ)) : LoopState :=
  trace.foldl (fun s lt => stepLine pats s lt.1 lt.2) st

/-- How a session ends: the child exits on its own with a code
(`process.poll()` non-`None`, `process.returncode` returned), or the
operator interrupts (`KeyboardInterrupt`: `process.terminate()`,
return 1). -/
inductive SessionEnd where
  | childExit (code : Int)
  | interrupted
deriving DecidableEq, Repr

/-- The observable outcome of `run_claude`: exit code, whether child
termination was requested, and the injected responses. -/
structure RunResult where
  exitCode : Int
  terminatedChild : Bool
  sent : List (ℚ × String)
deriving DecidableEq, Repr

/-- `ClaudeAutoWrapper.run_claude` (source lines 140–218) over the lines
the loop processes before the session ends: empty/invalid arguments are
rejected with exit code 1 before spawning (lines 143–145); otherwise the
loop runs and the result is the child's own exit code, or 1 with a
termination request on `KeyboardInterrupt`. -/
def run_claude (pats : List (String × String)) (args : List String)
    (trace : List (String × ℚ)) (e : SessionEnd) : RunResult :=
  if args = [] then
    { exitCode := 1, terminatedChild := false, sent := [] }
  else
    let final := runLines pats initState trace
    match e with
    | SessionEnd.childExit c =>
      { exitCode := c, terminatedChild := false, sent := final.sent }
    | SessionEnd.interrupted =>
      { exitCode := 1, terminatedChild := true, sent := final.sent }

/-- The loop's standing invariant tying the sent list to the timer:
consecutive injections are more than the debounce interval apart, and
the last injection's instant is the timer value. -/
def sentInv (st : LoopState) : Prop :=
  List.Chain' (fun a b : ℚ × String => b.1 - a.1 > RESPONSE_DEBOUNCE_TIME) st.sent
  ∧ ∀ x, st.sent.getLast? = some x → x.1 = st.lastResponseTime

/-! ### Helper lemmas about the selector -/

/-- When every pattern's search fails, the selector falls through to the
default branch. -/
theorem find_response_all_fail :
    ∀ (pats : List (String × String)) (buf : String),
      (∀ e ∈ pats, regexSearch e.1 buf = some false) →
      find_response pats buf = some "yes"
  | [], _, _ => rfl
  | (p, r) :: rest, buf, h => by
    have hp : regexSearch p buf = some false := h (p, r) (List.mem_cons_self _ _)
    simp only [find_response, hp]
    exact find_response_all_fail rest buf (fun e he => h e (List.mem_cons_of_mem _ he))

/-- A suffix of parsable entries that all answer `"yes"` yields the
default answer whatever the buffer. -/
theorem find_response_all_yes :
    ∀ (extra : List (String × String)) (buf : String),
      (∀ e ∈ extra, e.2 = "yes" ∧ (parseRegex e.1.data).isSome) →
      find_response extra buf = some "yes"
  | [], _, _ => rfl
  | (p, r) :: rest, buf, h => by
    obtain ⟨hr, hp⟩ := h (p, r) (List.mem_cons_self _ _)
    obtain ⟨ts, hts⟩ := Option.isSome_iff_exists.mp hp
    have hsearch : regexSearch p buf = some (rsearch ts buf.data) := by
      simp [regexSearch, hts]
    cases hb : rsearch ts buf.data with
    | true =>
      simp only [find_response, hsearch, hb]
      simpa using hr
    | false =>
      simp only [find_response, hsearch, hb]
      exact find_response_all_yes rest buf (fun e he => h e (List.mem_cons_of_mem _ he))

/-- Appending entries that all answer `"yes"` and parse does not change
the selector's value on any buffer. -/
theorem find_response_append_all_yes :
    ∀ (pats extra : List (String × String)) (buf : String),
      (∀ e ∈ extra, e.2 = "yes" ∧ (parseRegex e.1.data).isSome) →
      find_response (pats ++ extra) buf = find_response pats buf
  | [], extra, buf, h => by
    simpa [find_response] using find_response_all_yes extra buf h
  | (p, r) :: rest, extra, buf, h => by
    cases hs : regexSearch p buf with
    | none => simp [find_response, hs]
    | some b =>
      cases b with
      | true => simp [find_response, hs]
      | false =>
        simp only [List.cons_append, find_response, hs]
        exact find_response_append_all_yes rest extra buf h

/-- First-match-wins, stated by index: if every earlier pattern's search
fails and pattern `i` matches, the selector returns response `i`. -/
theorem find_response_priority_aux :
    ∀ (pats : List (String × String)) (buf : String) (i : Nat) (hi : i < pats.length),
      (∀ j (hj : j < pats.length), j < i → regexSearch (pats.get ⟨j, hj⟩).1 buf = some false) →
      regexSearch (pats.get ⟨i, hi⟩).1 buf = some true →
      find_response pats buf = some (pats.get ⟨i, hi⟩).2
  | [], _, i, hi, _, _ => absurd hi (by simp)
  | (p, r) :: rest, buf, 0, _, _, hmatch => by
    simp only [List.get] at hmatch ⊢
    simp [find_response, hmatch]
  | (p, r) :: rest, buf, i + 1, hi, hearlier, hmatch => by
    have h0 : regexSearch p buf = some false := by
      simpa using hearlier 0 (by simp) (Nat.succ_pos i)
    have ih := find_response_priority_aux rest buf i (by simpa using Nat.lt_of_succ_lt_succ hi)
      (fun j hj hji => by
        simpa using hearlier (j + 1) (by simpa using Nat.succ_lt_succ hj) (Nat.succ_lt_succ hji))
      (by simpa using hmatch)
    simp only [find_response, h0]
    simpa using ih

/-- A selector run over a table of parsable patterns always produces a
response. -/
theorem find_response_isSome :
    ∀ (pats : List (String × String)) (buf : String),
      (∀ e ∈ pats, (parseRegex e.1.data).isSome) →
      (find_response pats buf).isSome
  | [], _, _ => rfl
  | (p, r) :: rest, buf, h => by
    obtain ⟨ts, hts⟩ := Option.isSome_iff_exists.mp (h (p, r) (List.mem_cons_self _ _))
    have hsearch : regexSearch p buf = some (rsearch ts buf.data) := by
      simp [regexSearch, hts]
    cases hb : rsearch ts buf.data with
    | true => simp [find_response, hsearch, hb]
    | false =>
      simp only [find_response, hsearch, hb]
      exact find_response_isSome rest buf (fun e he => h e (List.mem_cons_of_mem _ he))

/-- Every entry a parsed settings document contributes carries the
response `"yes"`. -/
theorem patternsOfSettings_all_yes (s : Settings) :
    ∀ e ∈ patternsOfSettings s, e.2 = "yes" := by
  intro e he
  simp only [patternsOfSettings, List.mem_append] at he
  rcases he with h | h
  · split at h
    · obtain ⟨p, _, rfl⟩ := List.mem_map.mp h
      rfl
    · simp at h
  · split at h
    · simp only [n8n_auto_approve_patterns, List.mem_cons, List.not_mem_nil, or_false] at h
      rcases h with rfl | rfl | rfl | rfl | rfl <;> rfl
    · simp at h

/-- Every entry the loader produces carries the response `"yes"`. -/
theorem load_docker_patterns_all_yes (fs1 fs2 : FileState) :
    ∀ e ∈ load_docker_patterns fs1 fs2, e.2 = "yes" := by
  intro e he
  cases fs1 with
  | ok s =>
    exact patternsOfSettings_all_yes s e (by simpa [load_docker_patterns, tryLoadPath] using he)
  | absent | unreadable | malformed =>
    cases fs2 with
    | ok s =>
      exact patternsOfSettings_all_yes s e (by simpa [load_docker_patterns, tryLoadPath] using he)
    | absent | unreadable | malformed =>
      simp [load_docker_patterns, tryLoadPath] at he

/-! ### The claims -/

/-- C7: configuration-error recovery — whenever neither well-known path
holds a readable, parseable settings document (absent, unreadable or
malformed, in any combination), `load_docker_patterns` yields zero
additional entries; as a total Lean function it cannot raise, mirroring
the `try`/`except` that swallows every error locally. -/
theorem config_error_recovery (fs1 fs2 : FileState)
    (h1 : ∀ s, fs1 ≠ FileState.ok s) (h2 : ∀ s, fs2 ≠ FileState.ok s) :
    load_docker_patterns fs1 fs2 = [] := by
  cases fs1 with
  | ok s => exact absurd rfl (h1 s)
  | absent | unreadable | malformed =>
    cases fs2 with
    | ok s => exact absurd rfl (h2 s)
    | absent | unreadable | malformed => rfl

/-- Witness for C7 at a concrete state: first path absent, second
malformed. -/
theorem config_error_recovery_witness :
    (∀ s, FileState.absent ≠ FileState.ok s)
    ∧ (∀ s, FileState.malformed ≠ FileState.ok s)
    ∧ load_docker_patterns FileState.absent FileState.malformed = [] :=
  And.intro (fun _ h => nomatch h) (And.intro (fun _ h => nomatch h)
    (config_error_recovery FileState.absent FileState.malformed
      (fun _ h => nomatch h) (fun _ h => nomatch h)))

/-- C9: configuration absence is behaviorally identical to configuration
presence with the docker `enabled` flag and the n8n `auto_approve` flag
both disabled (missing keys defaulting to disabled via `getD`): the
loader yields the same (empty) extra entries and hence the same full
Pattern Table. -/
theorem config_absence_equivalence (s : Settings) (fs2 : FileState)
    (hd : s.docker_enabled.getD false = false)
    (hn : s.n8n_auto_approve.getD false = false) :
    load_docker_patterns (FileState.ok s) fs2
      = load_docker_patterns FileState.absent FileState.absent
    ∧ response_patterns (load_docker_patterns (FileState.ok s) fs2)
      = response_patterns (load_docker_patterns FileState.absent FileState.absent) := by
  have hp : patternsOfSettings s = [] := by
    simp [patternsOfSettings, hd, hn]
  exact ⟨by simp [load_docker_patterns, tryLoadPath, hp],
    by simp [response_patterns, load_docker_patterns, tryLoadPath, hp]⟩

/-- Witness for C9: a document with all keys missing, second path
unreadable. -/
theorem config_absence_equivalence_witness :
    (Settings.mk none none none).docker_enabled.getD false = false
    ∧ load_docker_patterns (FileState.ok (Settings.mk none none none)) FileState.unreadable
      = load_docker_patterns FileState.absent FileState.absent :=
  ⟨rfl, (config_absence_equivalence (Settings.mk none none none) FileState.unreadable rfl rfl).1⟩

/-- C6: exit-code contract — with valid arguments, a child that exits on
its own makes `run_claude` return the child's own exit code with no
termination request (in particular a child exiting with code 0 before
any output yields 0 with no responses sent), while an operator interrupt
makes it request child termination and return 1. -/
theorem exit_code_contract :
    (∀ (pats : List (String × String)) (args : List String)
        (trace : List (String × ℚ)) (c : Int), args ≠ [] →
      (run_claude pats args trace (SessionEnd.childExit c)).exitCode = c
      ∧ (run_claude pats args trace (SessionEnd.childExit c)).terminatedChild = false)
    ∧ (∀ (pats : List (String × String)) (args : List String) (c : Int), args ≠ [] →
      run_claude pats args [] (SessionEnd.childExit c)
        = { exitCode := c, terminatedChild := false, sent := [] })
    ∧ (∀ (pats : List (String × String)) (args : List String)
        (trace : List (String × ℚ)), args ≠ [] →
      (run_claude pats args trace SessionEnd.interrupted).exitCode = 1
      ∧ (run_claude pats args trace SessionEnd.interrupted).terminatedChild = true) := by
  refine ⟨fun pats args trace c h => ?_, fun pats args c h => ?_, fun pats args trace h => ?_⟩
  · simp [run_claude, h]
  · simp [run_claude, h, runLines, initState]
  · simp [run_claude, h]

/-- Witness for C6: empty session ending with child exit code 0, and an
interrupted session. -/
theorem exit_code_contract_witness :
    (["hello"] : List String) ≠ []
    ∧ run_claude (response_patterns []) ["hello"] [] (SessionEnd.childExit 0)
      = { exitCode := 0, terminatedChild := false, sent := [] }
    ∧ (run_claude (response_patterns []) ["hello"] [("Continue?\n", 1)]
        SessionEnd.interrupted).exitCode = 1 :=
  And.intro (by simp) (And.intro
    (exit_code_contract.2.1 (response_patterns []) ["hello"] 0 (by simp))
    (exit_code_contract.2.2 (response_patterns []) ["hello"] [("Continue?\n", 1)] (by simp)).1)

/-- C5: default response — on a buffer where every pattern's search
fails, `find_response` returns the fixed default `some "yes"` (so it
never yields no-response there), and as a pure function it is
deterministic: two calls on the same unmodified buffer agree. -/
theorem selector_default_response :
    (∀ (pats : List (String × String)) (buf : String),
      (∀ e ∈ pats, regexSearch e.1 buf = some false) →
      find_response pats buf = some "yes")
    ∧ (∀ (pats : List (String × String)) (buf : String) (r1 r2 : Option String),
      find_response pats buf = r1 → find_response pats buf = r2 → r1 = r2) :=
  ⟨find_response_all_fail, fun _ _ _ _ h1 h2 => h1 ▸ h2 ▸ rfl⟩

/-- Witness for C5: the program's own table on the buffer `"zzz"`, which
matches none of its patterns. -/
theorem selector_default_response_witness :
    (∀ e ∈ response_patterns [], regexSearch e.1 "zzz" = some false)
    ∧ find_response (response_patterns []) "zzz" = some "yes" :=
  ⟨by decide, selector_default_response.1 (response_patterns []) "zzz" (by decide)⟩

/-- C1: priority law — whenever every pattern before index `i` fails on
the buffer and pattern `i` matches, the selector returns the response at
index `i` (first match wins); in particular the buffer
`"Do you want to proceed? (y/n)"` matches both the first pattern and the
later `\(y/N\)` pattern (index 10), and the selected response is
`"yes"`, the response of the earlier pattern. -/
theorem selector_priority_law :
    (∀ (pats : List (String × String)) (buf : String) (i : Nat) (hi : i < pats.length),
      (∀ j (hj : j < pats.length), j < i → regexSearch (pats.get ⟨j, hj⟩).1 buf = some false) →
      regexSearch (pats.get ⟨i, hi⟩).1 buf = some true →
      find_response pats buf = some (pats.get ⟨i, hi⟩).2)
    ∧ regexSearch "Do you want to proceed\\?" "Do you want to proceed? (y/n)" = some true
    ∧ regexSearch "\\(y/N\\)" "Do you want to proceed? (y/n)" = some true
    ∧ (response_patterns []).getD 0 ("", "") = ("Do you want to proceed\\?", "yes")
    ∧ (response_patterns []).getD 10 ("", "") = ("\\(y/N\\)", "y")
    ∧ find_response (response_patterns []) "Do you want to proceed? (y/n)" = some "yes" :=
  ⟨find_response_priority_aux, by decide, by decide, by decide, by decide, by decide⟩

/-- Witness for C1: the priority law applied at index 0 of the program's
table on the Scenario A buffer. -/
theorem selector_priority_law_witness :
    find_response (response_patterns []) "Do you want to proceed? (y/n)" = some "yes" := by
  have h := selector_priority_law.1 (response_patterns []) "Do you want to proceed? (y/n)"
    0 (by decide) (fun j hj hji => absurd hji (Nat.not_lt_zero j)) (by decide)
  exact h.trans (by decide)

/-- C10: configuration-loaded entries are behaviorally inert — every
entry the loader produces answers `"yes"` and is appended after the
built-ins, so (for appended entries inside the modelled regex fragment)
the selector's value on every buffer is unchanged by their presence. -/
theorem config_patterns_inert :
    (∀ fs1 fs2, ∀ e ∈ load_docker_patterns fs1 fs2, e.2 = "yes")
    ∧ (∀ (extra : List (String × String)) (buf : String),
      (∀ e ∈ extra, e.2 = "yes" ∧ (parseRegex e.1.data).isSome) →
      find_response (response_patterns extra) buf
        = find_response (response_patterns []) buf) := by
  refine ⟨load_docker_patterns_all_yes, fun extra buf h => ?_⟩
  have h1 : find_response (builtin_response_patterns ++ extra) buf
      = find_response builtin_response_patterns buf :=
    find_response_append_all_yes builtin_response_patterns extra buf h
  have h2 : find_response (builtin_response_patterns ++ []) buf
      = find_response builtin_response_patterns buf := by
    simp
  show find_response (builtin_response_patterns ++ extra) buf
    = find_response (builtin_response_patterns ++ []) buf
  exact h1.trans h2.symm

/-- Witness for C10: the n8n block appended to the built-ins leaves the
selector's answer on a docker-prompt buffer unchanged. -/
theorem config_patterns_inert_witness :
    (∀ e ∈ n8n_auto_approve_patterns, e.2 = "yes" ∧ (parseRegex e.1.data).isSome)
    ∧ find_response (response_patterns n8n_auto_approve_patterns) "Starting container xyz"
      = find_response (response_patterns []) "Starting container xyz" :=
  ⟨by decide,
    config_patterns_inert.2 n8n_auto_approve_patterns "Starting container xyz" (by decide)⟩

/-! ### Helper lemmas about the loop -/

/-- Each line-processing step either leaves the injections and timer
alone and extends the buffer, or (only when the debounce interval has
elapsed) injects exactly one response, resets the timer to now and
clears the buffer. -/
theorem stepLine_cases (pats : List (String × String)) (st : LoopState)
    (line : String) (t : ℚ) :
    (stepLine pats st line t
        = { st with buffer := st.buffer ++ line })
    ∨ (∃ r, find_response pats (st.buffer ++ line) = some r ∧ r ≠ ""
        ∧ t - st.lastResponseTime > RESPONSE_DEBOUNCE_TIME
        ∧ stepLine pats st line t
          = { buffer := "", lastResponseTime := t, sent := st.sent ++ [(t, r)] }) := by
  unfold stepLine
  cases h : find_response pats (st.buffer ++ line) with
  | none => exact Or.inl rfl
  | some r =>
    by_cases hc : r ≠ "" ∧ t - st.lastResponseTime > RESPONSE_DEBOUNCE_TIME
    · exact Or.inr ⟨r, rfl, hc.1, hc.2, by simp [hc]⟩
    · exact Or.inl (by simp [hc])

theorem sentInv_init : sentInv initState :=
  ⟨List.chain'_nil, fun x h => by simp [initState] at h⟩

theorem stepLine_sentInv (pats : List (String × String)) (st : LoopState)
    (line : String) (t : ℚ) (h : sentInv st) :
    sentInv (stepLine pats st line t) := by
  rcases stepLine_cases pats st line t with heq | ⟨r, _, _, ht, heq⟩
  · rw [heq]; exact h
  · rw [heq]
    constructor
    · rw [List.chain'_append]
      refine ⟨h.1, List.chain'_singleton _, fun x hx y hy => ?_⟩
      simp only [List.head?_cons, Option.mem_def, Option.some.injEq] at hy
      subst hy
      rw [h.2 x hx]
      exact ht
    · intro x hx
      rw [List.getLast?_concat] at hx
      cases hx
      rfl

theorem runLines_sentInv (pats : List (String × String)) :
    ∀ (trace : List (String × ℚ)) (st : LoopState), sentInv st →
      sentInv (runLines pats st trace)
  | [], _, h => h
  | lt :: rest, st, h =>
    runLines_sentInv pats rest (stepLine pats st lt.1 lt.2)
      (stepLine_sentInv pats st lt.1 lt.2 h)

/-- Injection instants of a whole run are spaced by more than the
debounce interval. -/
theorem runLines_spacing (pats : List (String × String)) (trace : List (String × ℚ)) :
    List.Chain' (fun a b : ℚ × String => b.1 - a.1 > RESPONSE_DEBOUNCE_TIME)
      (runLines pats initState trace).sent :=
  (runLines_sentInv pats trace initState sentInv_init).1

/-- A non-empty line appended to any buffer yields a non-empty buffer. -/
theorem append_line_ne_empty (b line : String) (h : line ≠ "") : b ++ line ≠ "" := by
  intro hc
  apply h
  have := congrArg String.data hc
  simp only [String.data_append] at this
  rcases List.append_eq_nil.mp (by simpa using this) with ⟨_, h2⟩
  cases line
  simp_all

/-- When every instant of a tick lies within the debounce window of the
current timer, the tick injects nothing and leaves the timer alone. -/
theorem processTick_no_injection (pats : List (String × String)) :
    ∀ (lines : List (String × ℚ)) (st : LoopState),
      (∀ x ∈ lines, x.2 - st.lastResponseTime ≤ RESPONSE_DEBOUNCE_TIME) →
      (processTick pats st lines).1.sent = st.sent
      ∧ (processTick pats st lines).1.lastResponseTime = st.lastResponseTime
  | [], _, _ => ⟨rfl, rfl⟩
  | (l, t) :: rest, st, h => by
    by_cases hn : (find_response pats (st.buffer ++ l)).isNone
    · simp [processTick, hn]
    · have hstep : stepLine pats st l t = { st with buffer := st.buffer ++ l } := by
        rcases stepLine_cases pats st l t with heq | ⟨r, _, _, ht, _⟩
        · exact heq
        · exact absurd (h (l, t) (List.mem_cons_self _ _)) (by simp; linarith)
      have ih := processTick_no_injection pats rest { st with buffer := st.buffer ++ l }
        (fun x hx => h x (List.mem_cons_of_mem _ hx))
      simp only [processTick, hn, if_false, hstep]
      exact ih

/-- A tick injects at most one response per drained line. -/
theorem processTick_line_bound (pats : List (String × String)) :
    ∀ (lines : List (String × ℚ)) (st : LoopState),
      (processTick pats st lines).1.sent.length ≤ st.sent.length + lines.length
  | [], _ => le_refl _
  | (l, t) :: rest, st => by
    by_cases hn : (find_response pats (st.buffer ++ l)).isNone
    · simp [processTick, hn]
    · have ih := processTick_line_bound pats rest (stepLine pats st l t)
      have hstep : (stepLine pats st l t).sent.length ≤ st.sent.length + 1 := by
        rcases stepLine_cases pats st l t with heq | ⟨r, _, _, _, heq⟩ <;> simp [heq]
      simp only [processTick, hn, Bool.false_eq_true, if_false, List.length_cons]
      omega

/-- When all instants of one tick fit inside one debounce interval, the
tick injects at most one response. -/
theorem processTick_window_bound (pats : List (String × String)) :
    ∀ (lines : List (String × ℚ)) (st : LoopState),
      List.Pairwise (fun a b : String × ℚ => b.2 - a.2 ≤ RESPONSE_DEBOUNCE_TIME) lines →
      (processTick pats st lines).1.sent.length ≤ st.sent.length + 1
  | [], _, _ => by simp [processTick]
  | (l, t) :: rest, st, h => by
    have hhead := (List.pairwise_cons.mp h).1
    have htail := (List.pairwise_cons.mp h).2
    by_cases hn : (find_response pats (st.buffer ++ l)).isNone
    · simp [processTick, hn]
    · simp only [processTick, hn, Bool.false_eq_true, if_false]
      rcases stepLine_cases pats st l t with heq | ⟨r, _, _, _, heq⟩
      · have := processTick_window_bound pats rest (stepLine pats st l t) htail
        simp only [heq] at this ⊢
        exact this
      · have hrest := processTick_no_injection pats rest
          { buffer := "", lastResponseTime := t, sent := st.sent ++ [(t, r)] }
          (fun x hx => by simpa using hhead x hx)
        rw [heq, hrest.1]
        simp

/-- C2: debounce law — (i) any two consecutive injections of a session
are separated by more than the debounce interval (the timer is reset to
the injection instant); (ii) two outputs processed less than the
interval apart cause at most one injection between them; (iii) two
outputs that each draw a (truthy) response and are processed more than
the interval apart — the first itself more than the interval after the
timer — cause exactly two injections. -/
theorem debounce_law :
    (∀ (pats : List (String × String)) (trace : List (String × ℚ)),
      List.Chain' (fun a b : ℚ × String => b.1 - a.1 > RESPONSE_DEBOUNCE_TIME)
        (runLines pats initState trace).sent)
    ∧ (∀ (pats : List (String × String)) (st : LoopState)
        (l1 : String) (t1 : ℚ) (l2 : String) (t2 : ℚ),
      t2 - t1 < RESPONSE_DEBOUNCE_TIME →
      (runLines pats st [(l1, t1), (l2, t2)]).sent.length ≤ st.sent.length + 1)
    ∧ (∀ (pats : List (String × String)) (st : LoopState)
        (l1 : String) (t1 : ℚ) (l2 : String) (t2 : ℚ) (r1 r2 : String),
      find_response pats (st.buffer ++ l1) = some r1 → r1 ≠ "" →
      find_response pats l2 = some r2 → r2 ≠ "" →
      t1 - st.lastResponseTime > RESPONSE_DEBOUNCE_TIME →
      t2 - t1 > RESPONSE_DEBOUNCE_TIME →
      (runLines pats st [(l1, t1), (l2, t2)]).sent = st.sent ++ [(t1, r1), (t2, r2)]) := by
  refine ⟨runLines_spacing, ?_, ?_⟩
  · intro pats st l1 t1 l2 t2 hlt
    have h2 : runLines pats st [(l1, t1), (l2, t2)]
        = stepLine pats (stepLine pats st l1 t1) l2 t2 := rfl
    rcases stepLine_cases pats st l1 t1 with heq1 | ⟨r1, _, _, _, heq1⟩ <;>
      rcases stepLine_cases pats (stepLine pats st l1 t1) l2 t2 with
        heq2 | ⟨r2, _, _, ht2, heq2⟩
    · rw [h2, heq2, heq1]; simp
    · rw [h2, heq2, heq1]; simp
    · rw [h2, heq2, heq1]; simp
    · rw [heq1] at ht2
      simp only at ht2
      exact absurd ht2 (by simp only [not_lt]; linarith)
  · intro pats st l1 t1 l2 t2 r1 r2 hf1 hr1 hf2 hr2 ht1 ht2
    have hstep1 : stepLine pats st l1 t1
        = { buffer := "", lastResponseTime := t1, sent := st.sent ++ [(t1, r1)] } := by
      unfold stepLine
      rw [hf1]
      simp [hr1, ht1]
    have hstep2 : stepLine pats
        { buffer := "", lastResponseTime := t1, sent := st.sent ++ [(t1, r1)] } l2 t2
        = { buffer := "", lastResponseTime := t2,
            sent := (st.sent ++ [(t1, r1)]) ++ [(t2, r2)] } := by
      unfold stepLine
      have hb : ("" : String) ++ l2 = l2 := rfl
      simp only [hb]
      rw [hf2]
      simp [hr2, ht2]
    have h2 : runLines pats st [(l1, t1), (l2, t2)]
        = stepLine pats (stepLine pats st l1 t1) l2 t2 := rfl
    rw [h2, hstep1, hstep2]
    simp

/-- Witness for C2: two default-matching lines processed 1 time unit
apart, each past the debounce interval, cause exactly two injections;
two lines 1/20 apart cause at most one. -/
theorem debounce_law_witness :
    (runLines (response_patterns []) initState
        [("Continue?\n", 1), ("Are you sure\n", 2)]).sent = [(1, "yes"), (2, "yes")]
    ∧ (runLines (response_patterns []) initState
        [("Continue?\n", 1), ("Are you sure\n", (21 : ℚ) / 20)]).sent.length ≤ 1 := by
  constructor
  · have h := debounce_law.2.2 (response_patterns []) initState
      "Continue?\n" 1 "Are you sure\n" 2 "yes" "yes"
      (by decide) (by decide) (by decide) (by decide)
      (by norm_num [initState, RESPONSE_DEBOUNCE_TIME])
      (by norm_num [RESPONSE_DEBOUNCE_TIME])
    simpa [initState] using h
  · have h := debounce_law.2.1 (response_patterns []) initState
      "Continue?\n" 1 "Are you sure\n" ((21 : ℚ) / 20)
      (by norm_num [RESPONSE_DEBOUNCE_TIME])
    simpa [initState] using h

/-- C4: buffer/response invariant — at each step on a non-empty line,
the buffer ends up empty exactly when a response was injected; an
injection happens transactionally with the timer reset to now and only
past the debounce interval; when the interval has not elapsed the buffer
keeps accumulating and nothing else changes; and over any run,
injections are spaced more than one debounce interval apart. -/
theorem buffer_response_invariant :
    (∀ (pats : List (String × String)) (st : LoopState) (line : String) (t : ℚ),
      line ≠ "" →
      ((stepLine pats st line t).buffer = ""
        ↔ (stepLine pats st line t).sent.length = st.sent.length + 1)
      ∧ ((stepLine pats st line t).sent.length = st.sent.length + 1 →
        (stepLine pats st line t).lastResponseTime = t
        ∧ t - st.lastResponseTime > RESPONSE_DEBOUNCE_TIME
        ∧ ∃ r, (stepLine pats st line t).sent = st.sent ++ [(t, r)])
      ∧ (t - st.lastResponseTime ≤ RESPONSE_DEBOUNCE_TIME →
        (stepLine pats st line t).buffer = st.buffer ++ line
        ∧ (stepLine pats st line t).sent = st.sent
        ∧ (stepLine pats st line t).lastResponseTime = st.lastResponseTime))
    ∧ (∀ (pats : List (String × String)) (trace : List (String × ℚ)),
      List.Chain' (fun a b : ℚ × String => b.1 - a.1 > RESPONSE_DEBOUNCE_TIME)
        (runLines pats initState trace).sent) := by
  refine ⟨fun pats st line t hline => ?_, runLines_spacing⟩
  rcases stepLine_cases pats st line t with heq | ⟨r, _, _, ht, heq⟩
  · refine ⟨?_, ?_, ?_⟩
    · rw [heq]
      simp only
      constructor
      · intro hb
        exact absurd hb (append_line_ne_empty st.buffer line hline)
      · intro hl
        omega
    · rw [heq]
      intro hl
      simp only at hl
      omega
    · intro _
      rw [heq]
      exact ⟨rfl, rfl, rfl⟩
  · refine ⟨?_, ?_, ?_⟩
    · rw [heq]
      simp
    · intro _
      rw [heq]
      exact ⟨rfl, ht, r, by simp⟩
    · intro hle
      exact absurd ht (not_lt.mpr hle)

/-- Witness for C4 on a concrete non-empty line. -/
theorem buffer_response_invariant_witness :
    ("a\n" : String) ≠ ""
    ∧ ((stepLine (response_patterns []) initState "a\n" 1).buffer = ""
      ↔ (stepLine (response_patterns []) initState "a\n" 1).sent.length
        = initState.sent.length + 1) :=
  ⟨by decide,
    (buffer_response_invariant.1 (response_patterns []) initState "a\n" 1 (by decide)).1⟩

/-- C3 fails on the code: one poll tick with two queued lines (processed
at instants 1 and 2) injects two responses, because the code runs the
selector and possibly injects after every drained line inside the drain
loop, rather than draining everything and injecting at most once per
tick. -/
theorem tick_single_response_cex :
    (processTick (response_patterns []) initState
      [("a\n", 1), ("b\n", 2)]).1.sent = [(1, "yes"), (2, "yes")] := by
  have hf1 : find_response (response_patterns []) (initState.buffer ++ "a\n")
      = some "yes" := by decide
  have hf2 : find_response (response_patterns []) (("" : String) ++ "b\n")
      = some "yes" := by decide
  have h1 : stepLine (response_patterns []) initState "a\n" 1
      = { buffer := "", lastResponseTime := 1, sent := [(1, "yes")] } := by
    unfold stepLine
    rw [hf1]
    simp only [initState]
    rw [if_pos ⟨by decide, by norm_num [RESPONSE_DEBOUNCE_TIME]⟩]
    rfl
  have h2 : stepLine (response_patterns [])
      { buffer := "", lastResponseTime := 1, sent := [(1, "yes")] } "b\n" 2
      = { buffer := "", lastResponseTime := 2, sent := [(1, "yes"), (2, "yes")] } := by
    unfold stepLine
    rw [hf2]
    simp only
    rw [if_pos ⟨by decide, by norm_num [RESPONSE_DEBOUNCE_TIME]⟩]
    rfl
  simp only [processTick, hf1, h1, Option.isNone_some, Bool.false_eq_true, if_false]
  simp only [processTick, hf2, h2, Option.isNone_some, Bool.false_eq_true, if_false]

/-- C3 (amended): on each tick the loop takes queued lines one at a
time, appending each to the buffer and running the selector on the
accumulated buffer after each line, injecting at most one response per
drained line; consequently a tick injects at most one response whenever
all its lines are processed within one debounce interval of each other
(e.g. a fast drain), but not in general. -/
theorem tick_per_line_selection :
    (∀ (pats : List (String × String)) (st : LoopState) (lines : List (String × ℚ)),
      (processTick pats st lines).1.sent.length ≤ st.sent.length + lines.length)
    ∧ (∀ (pats : List (String × String)) (st : LoopState) (lines : List (String × ℚ)),
      List.Pairwise (fun a b : String × ℚ => b.2 - a.2 ≤ RESPONSE_DEBOUNCE_TIME) lines →
      (processTick pats st lines).1.sent.length ≤ st.sent.length + 1) :=
  ⟨fun pats st lines => processTick_line_bound pats lines st,
    fun pats st lines h => processTick_window_bound pats lines st h⟩

/-- Witness for C3's amended law: two lines processed at the same
instant within one tick yield at most one injection. -/
theorem tick_per_line_selection_witness :
    List.Pairwise (fun a b : String × ℚ => b.2 - a.2 ≤ RESPONSE_DEBOUNCE_TIME)
      [(("Continue?\n" : String), (1 : ℚ)), ("(y/N)\n", 1)]
    ∧ (processTick (response_patterns []) initState
        [(("Continue?\n" : String), (1 : ℚ)), ("(y/N)\n", 1)]).1.sent.length
      ≤ initState.sent.length + 1 := by
  have hp : List.Pairwise (fun a b : String × ℚ => b.2 - a.2 ≤ RESPONSE_DEBOUNCE_TIME)
      [(("Continue?\n" : String), (1 : ℚ)), ("(y/N)\n", 1)] := by
    refine List.Pairwise.cons (fun x hx => ?_)
      (List.Pairwise.cons (fun x hx => absurd hx (List.not_mem_nil x)) List.Pairwise.nil)
    rcases List.mem_singleton.mp hx with rfl
    norm_num [RESPONSE_DEBOUNCE_TIME]
  exact ⟨hp, tick_per_line_selection.2 (response_patterns []) initState _ hp⟩

/-! ### Case-insensitivity of the matcher -/

/-- `Char.ofNat` round-trips on valid (small) codepoints. -/
theorem char_toNat_ofNat_valid (m : Nat) (hm : m < 55296) : (Char.ofNat m).toNat = m := by
  unfold Char.ofNat
  rw [dif_pos (Or.inl hm)]
  rfl

/-- No character other than the newline lowercases to the newline. -/
theorem char_toLower_eq_newline_iff (c : Char) : c.toLower = '\n' ↔ c = '\n' := by
  constructor
  · intro h
    rw [Char.toLower, show (let n := c.toNat;
        if n ≥ 65 ∧ n ≤ 90 then Char.ofNat (n + 32) else c)
      = if c.toNat ≥ 65 ∧ c.toNat ≤ 90 then Char.ofNat (c.toNat + 32) else c from rfl] at h
    split at h
    · rename_i hc
      have h1 : (Char.ofNat (c.toNat + 32)).toNat = c.toNat + 32 :=
        char_toNat_ofNat_valid _ (by omega)
      have h2 := congrArg Char.toNat h
      rw [h1] at h2
      have h3 : Char.toNat '\n' = 10 := rfl
      omega
    · exact h
  · intro h
    subst h
    rfl

/-- The matcher only sees the text through `Char.toLower`. -/
theorem rmatchF_congr (n : Nat) :
    ∀ (ts : List RTok) (xs ys : List Char),
      xs.map Char.toLower = ys.map Char.toLower →
      rmatchF n ts xs = rmatchF n ts ys := by
  induction n with
  | zero => intro ts xs ys _; rfl
  | succ n ih =>
    intro ts xs ys h
    cases ts with
    | nil => rfl
    | cons tk ts =>
      cases xs with
      | nil =>
        cases ys with
        | nil => rfl
        | cons y ys => simp at h
      | cons x xs =>
        cases ys with
        | nil => simp at h
        | cons y ys =>
          simp only [List.map_cons, List.cons.injEq] at h
          obtain ⟨hxy, hrest⟩ := h
          have hiff : x = '\n' ↔ y = '\n' := by
            constructor
            · intro hx
              subst hx
              exact (char_toLower_eq_newline_iff y).mp (by rw [← hxy]; rfl)
            · intro hy
              subst hy
              exact (char_toLower_eq_newline_iff x).mp (by rw [hxy]; rfl)
          have hne : (x != '\n') = (y != '\n') := by
            by_cases hx : x = '\n'
            · rw [hx, hiff.mp hx]
            · have hy : ¬ y = '\n' := fun hy => hx (hiff.mpr hy)
              rw [bne_iff_ne.mpr hx, bne_iff_ne.mpr hy]
          cases tk with
          | lit c => simp only [rmatchF, hxy, ih ts xs ys hrest]
          | dot => simp only [rmatchF, hne, ih ts xs ys hrest]
          | dotStar =>
            simp only [rmatchF]
            rw [ih ts (x :: xs) (y :: ys) (by simp [hxy, hrest]),
              ih (RTok.dotStar :: ts) xs ys hrest, hne]

/-- `rmatch` only sees the text through `Char.toLower`. -/
theorem rmatch_congr (ts : List RTok) (xs ys : List Char)
    (h : xs.map Char.toLower = ys.map Char.toLower) : rmatch ts xs = rmatch ts ys := by
  have hlen : xs.length = ys.length := by
    have := congrArg List.length h
    simpa using this
  unfold rmatch
  rw [hlen]
  exact rmatchF_congr _ ts xs ys h

/-- The search only sees the text through `Char.toLower`. -/
theorem rsearch_congr :
    ∀ (ts : List RTok) (xs ys : List Char),
      xs.map Char.toLower = ys.map Char.toLower → rsearch ts xs = rsearch ts ys
  | _, [], [], _ => rfl
  | _, [], _ :: _, h => absurd (congrArg List.length h) (by simp)
  | _, _ :: _, [], h => absurd (congrArg List.length h) (by simp)
  | ts, x :: xs, y :: ys, h => by
    simp only [List.map_cons, List.cons.injEq] at h
    simp only [rsearch]
    rw [rmatch_congr ts (x :: xs) (y :: ys) (by simp [h.1, h.2]),
      rsearch_congr ts xs ys h.2]

/-- `regexSearch` is case-insensitive in the text. -/
theorem regexSearch_congr (p : String) (b1 b2 : String)
    (h : b1.data.map Char.toLower = b2.data.map Char.toLower) :
    regexSearch p b1 = regexSearch p b2 := by
  unfold regexSearch
  cases parseRegex p.data with
  | none => rfl
  | some ts => simp [rsearch_congr ts _ _ h]

/-- The selector is case-insensitive in the buffer. -/
theorem find_response_congr :
    ∀ (pats : List (String × String)) (b1 b2 : String),
      b1.data.map Char.toLower = b2.data.map Char.toLower →
      find_response pats b1 = find_response pats b2
  | [], _, _, _ => rfl
  | (p, r) :: rest, b1, b2, h => by
    cases hs : regexSearch p b2 with
    | none => simp [find_response, regexSearch_congr p b1 b2 h, hs]
    | some b =>
      cases b with
      | true => simp [find_response, regexSearch_congr p b1 b2 h, hs]
      | false =>
        simp only [find_response, regexSearch_congr p b1 b2 h, hs]
        exact find_response_congr rest b1 b2 h

/-- C8: robustness of the selector — as a total function it completes on
every buffer (of any size); on every Pattern Table whose matcher strings
lie in the modelled regex fragment — including operator-supplied strings
with unescaped metacharacters such as `.` and `*`, which are interpreted
as regex syntax, not escaped — it returns a response; and matching is
case-insensitive: buffers equal up to `Char.toLower` give equal results. -/
theorem selector_total_case_insensitive :
    (∀ (pats : List (String × String)) (buf : String),
      (∀ e ∈ pats, (parseRegex e.1.data).isSome) →
      (find_response pats buf).isSome)
    ∧ (∀ (pats : List (String × String)) (b1 b2 : String),
      b1.data.map Char.toLower = b2.data.map Char.toLower →
      find_response pats b1 = find_response pats b2) :=
  ⟨find_response_isSome, find_response_congr⟩

/-- Witness for C8: a config-style pattern with metacharacters appended
to the table still yields a response, and a buffer is matched the same
regardless of case. -/
theorem selector_total_case_insensitive_witness :
    (∀ e ∈ response_patterns [("Rebuild.*\\?", "yes")], (parseRegex e.1.data).isSome)
    ∧ (find_response (response_patterns [("Rebuild.*\\?", "yes")]) "REBUILD the image?").isSome
    ∧ "Overwrite file?".data.map Char.toLower = "overwrite FILE?".data.map Char.toLower
    ∧ find_response (response_patterns []) "Overwrite file?"
      = find_response (response_patterns []) "overwrite FILE?" :=
  And.intro (by decide) (And.intro
    (selector_total_case_insensitive.1 (response_patterns [("Rebuild.*\\?", "yes")])
      "REBUILD the image?" (by decide))
    (And.intro (by decide)
      (selector_total_case_insensitive.2 (response_patterns [])
        "Overwrite file?" "overwrite FILE?" (by decide))))
